import Mathlib

/-!
Shallow embedding of `ipmi-to-mqtt.py` (techthom95/ipmi-mqtt).

Python floats are modelled as rationals (`ℚ`); timestamps are wall-clock
seconds since the epoch, passed explicitly where the source calls
`time.time()`.  The mutable globals (`ENERGY_STATE`, `DISCOVERY_SENT`) are
modelled by explicit state passing.
-/

set_option autoImplicit false
set_option maxRecDepth 200000

namespace IpmiMqtt

/-- The persisted energy accumulator state (the Python dict `ENERGY_STATE`
with fields `last_power_w`, `last_update_ts`, `total_energy_kwh`). -/
structure EnergyState where
  last_power_w : ℚ
  last_update_ts : ℚ
  total_energy_kwh : ℚ
  deriving DecidableEq, Repr

/-- The module-level initial value of `ENERGY_STATE`: `last_power_w = 0.0`,
`last_update_ts = time.time()` (the wall-clock time at process start, taken
here as the parameter `startup_ts`), `total_energy_kwh = 0.0`.
`load_energy_state` leaves this state unchanged when no persisted file
exists. -/
def ENERGY_STATE_init (startup_ts : ℚ) : EnergyState :=
  ⟨0, startup_ts, 0⟩

/-- `calculate_energy(current_watts)` from the source, with the global
state and the `time.time()` result made explicit.  Returns the updated
state; the Python function returns `ENERGY_STATE["total_energy_kwh"]` of
that updated state. -/
def calculate_energy (st : EnergyState) (current_watts current_ts : ℚ) :
    EnergyState :=
  let time_diff_hrs := (current_ts - st.last_update_ts) / 3600
  let avg_power_w := (current_watts + st.last_power_w) / 2
  let energy_wh := avg_power_w * time_diff_hrs
  let energy_kwh := energy_wh / 1000
  ⟨current_watts, current_ts, st.total_energy_kwh + energy_kwh⟩

/-- Run a sequence of `calculate_energy` calls; each pair is
(current_watts, current_ts). -/
def runCalcs (st : EnergyState) : List (ℚ × ℚ) → EnergyState
  | [] => st
  | (w, t) :: rest => runCalcs (calculate_energy st w t) rest

/-- The running totals observed across a sequence of calls, starting with
the initial state's total. -/
def totalsTrace (st : EnergyState) : List (ℚ × ℚ) → List ℚ
  | [] => [st.total_energy_kwh]
  | (w, t) :: rest =>
      st.total_energy_kwh :: totalsTrace (calculate_energy st w t) rest

/-- The calls have non-negative power readings and timestamps that never go
backwards, starting from `ts0`. -/
def validSeq (ts0 : ℚ) : List (ℚ × ℚ) → Prop
  | [] => True
  | (w, t) :: rest => 0 ≤ w ∧ ts0 ≤ t ∧ validSeq t rest

lemma calculate_energy_total (st : EnergyState) (w t : ℚ) :
    (calculate_energy st w t).total_energy_kwh =
      st.total_energy_kwh + (w + st.last_power_w) / 2 * ((t - st.last_update_ts) / 3600) / 1000 := rfl

lemma calculate_energy_step_mono (st : EnergyState) (w t : ℚ)
    (hw : 0 ≤ w) (hp : 0 ≤ st.last_power_w) (ht : st.last_update_ts ≤ t) :
    st.total_energy_kwh ≤ (calculate_energy st w t).total_energy_kwh := by
  rw [calculate_energy_total]
  have h1 : 0 ≤ (w + st.last_power_w) / 2 := by positivity
  have h2 : 0 ≤ (t - st.last_update_ts) / 3600 := by
    have : 0 ≤ t - st.last_update_ts := by linarith
    positivity
  nlinarith

lemma totalsTrace_chain (st : EnergyState) (l : List (ℚ × ℚ))
    (hp : 0 ≤ st.last_power_w) (hv : validSeq st.last_update_ts l) :
    List.Chain' (· ≤ ·) (totalsTrace st l) := by
  induction l generalizing st with
  | nil => simp [totalsTrace]
  | cons p rest ih =>
    obtain ⟨w, t⟩ := p
    obtain ⟨hw, ht, hrest⟩ := hv
    have hstep := calculate_energy_step_mono st w t hw hp ht
    have htail := ih (calculate_energy st w t) hw hrest
    simp only [totalsTrace]
    cases hrec : totalsTrace (calculate_energy st w t) rest with
    | nil => simp
    | cons a as =>
      have hhead : a = (calculate_energy st w t).total_energy_kwh := by
        cases rest with
        | nil =>
          simp [totalsTrace] at hrec
          exact hrec.1.symm
        | cons q qs =>
          obtain ⟨w2, t2⟩ := q
          simp [totalsTrace] at hrec
          exact hrec.1.symm
      rw [hrec] at htail
      exact List.Chain'.cons (hhead ▸ hstep) htail

/-! Section: Output parser (`get_readings`)

The regexes of the source are embedded as deterministic scanners over
`List Char`.  Greediness notes justifying determinism:
* in `\[Module\s*(\d+)\]`, backtracking `\s*` or `\d+` always leaves a
  character that the next atom rejects, so the greedy scan is exact;
* in `label\s*\|\s*(\s*...)`, the outer `\s*` is greedy and absorbs all
  whitespace, so the group's leading `\s*` always captures nothing;
* in `(\s*\d+\.?\d*)\s*U`, if the greedy parse of the number fails to be
  followed by `\s*U`, every backtracking alternative puts a digit or a dot
  where `\s` or the unit letter `U` is required, so the position fails.
-/

/-- Python's `\s` on the ASCII range. -/
def isPySpace (c : Char) : Bool :=
  c = ' ' || c = '\t' || c = '\n' || c = '\r' || c = '\x0b' || c = '\x0c'

/-- Python's `\d` (ASCII digits). -/
def isDigitC (c : Char) : Bool :=
  '0' ≤ c && c ≤ '9'

/-- Match a literal at the head of the input; returns the remainder. -/
def matchLit : List Char → List Char → Option (List Char)
  | [], l => some l
  | _ :: _, [] => none
  | p :: ps, c :: cs => if c = p then matchLit ps cs else none

/-- Match `\[Module\s*(\d+)\]` at the head of the input; returns the
captured digit string and the remainder after `]`. -/
def matchModuleHeaderAt (l : List Char) : Option (List Char × List Char) :=
  match matchLit "[Module".toList l with
  | none => none
  | some r1 =>
    if (r1.dropWhile isPySpace).takeWhile isDigitC = [] then none
    else
      match (r1.dropWhile isPySpace).dropWhile isDigitC with
      | ']' :: r4 => some ((r1.dropWhile isPySpace).takeWhile isDigitC, r4)
      | _ => none

/-- Leftmost match of the module-header pattern: returns the text before
the match, the captured digits, and the text after the match. -/
def findHeader : List Char → Option (List Char × List Char × List Char)
  | [] => none
  | c :: cs =>
    match matchModuleHeaderAt (c :: cs) with
    | some (ds, rest) => some ([], ds, rest)
    | none =>
      match findHeader cs with
      | some (pre, ds, rest) => some (c :: pre, ds, rest)
      | none => none

lemma matchLit_length {pat l r : List Char} (h : matchLit pat l = some r) :
    r.length + pat.length = l.length := by
  induction pat generalizing l with
  | nil =>
    simp only [matchLit, Option.some.injEq] at h
    simp [h]
  | cons p ps ih =>
    cases l with
    | nil => exact absurd h (by simp [matchLit])
    | cons c cs =>
      simp only [matchLit] at h
      split at h
      · have := ih h
        simp only [List.length_cons]
        omega
      · exact absurd h (by simp)

lemma length_dropWhile_le' (p : Char → Bool) (l : List Char) :
    (l.dropWhile p).length ≤ l.length := by
  induction l with
  | nil => simp
  | cons c cs ih =>
    by_cases hc : p c
    · simp only [List.dropWhile, hc]
      exact Nat.le_succ_of_le ih
    · simp [List.dropWhile, hc]

lemma matchModuleHeaderAt_lt {l : List Char} {ds rest : List Char}
    (h : matchModuleHeaderAt l = some (ds, rest)) : rest.length < l.length := by
  unfold matchModuleHeaderAt at h
  split at h
  · cases h
  next r1 hm =>
    have h1 := matchLit_length hm
    have h7 : ("[Module".toList).length = 7 := rfl
    rw [h7] at h1
    split at h
    · cases h
    · split at h
      next r4 heq =>
        simp only [Option.some.injEq, Prod.mk.injEq] at h
        obtain ⟨hds, hrest⟩ := h
        have h2 : r4.length < (r1.dropWhile isPySpace).length := by
          have := length_dropWhile_le' isDigitC (r1.dropWhile isPySpace)
          rw [heq] at this
          simp only [List.length_cons] at this
          omega
        have h3 := length_dropWhile_le' isPySpace r1
        subst hrest
        omega
      next => cases h

lemma findHeader_lt {l pre ds rest : List Char}
    (h : findHeader l = some (pre, ds, rest)) : rest.length < l.length := by
  induction l generalizing pre with
  | nil => simp [findHeader] at h
  | cons c cs ih =>
    simp only [findHeader] at h
    cases hm : matchModuleHeaderAt (c :: cs) with
    | some v =>
      obtain ⟨ds0, rest0⟩ := v
      rw [hm] at h
      cases h
      exact matchModuleHeaderAt_lt hm
    | none =>
      rw [hm] at h
      cases hf : findHeader cs with
      | none => rw [hf] at h; cases h
      | some w =>
        obtain ⟨pre1, ds1, rest1⟩ := w
        rw [hf] at h
        cases h
        exact Nat.lt_succ_of_lt (ih hf)

/-- The module list after a header captured `ds`, with structural fuel:
the content of a module runs up to the next header (or to the end of the
text for the last one).  Each recursion step strictly shortens the
remaining text (`findHeader_lt`), so any fuel above the text length is
never exhausted and the fuel-0 fallback is unreachable from
`modulesAfter`. -/
def modulesAfterFuel : ℕ → List Char → List Char → List (List Char × List Char)
  | 0, ds, l => [(ds, l)]
  | fuel + 1, ds, l =>
    match findHeader l with
    | none => [(ds, l)]
    | some (pre, ds2, rest) => (ds, pre) :: modulesAfterFuel fuel ds2 rest

/-- The module list after a header captured `ds`. -/
def modulesAfter (ds : List Char) (l : List Char) : List (List Char × List Char) :=
  modulesAfterFuel (l.length + 1) ds l

/-- `re.split(r"\[Module\s*(\d+)\]", stdout)` paired up as the source's
`for i in range(1, len(modules), 2)` loop does: a list of
(captured module number, module content) pairs, the text before the first
header being discarded. -/
def splitModules (l : List Char) : List (List Char × List Char) :=
  match findHeader l with
  | none => []
  | some (_, ds, rest) => modulesAfter ds rest

/-- A value stored in the `readings` dict: a status string or a float. -/
inductive RVal where
  | str (s : List Char)
  | num (q : ℚ)
  deriving DecidableEq, Repr

/-- Match `label\s*\|\s*` at the head of the input; returns the remainder
with the whitespace after `|` consumed (the greedy outer `\s*`). -/
def matchLabelSep (label : List Char) (l : List Char) : Option (List Char) :=
  match matchLit label l with
  | none => none
  | some r1 =>
    match r1.dropWhile isPySpace with
    | '|' :: r2 => some (r2.dropWhile isPySpace)
    | _ => none

/-- Match `Status\s*\|\s*(\s*\S+)` at the head; returns group(1), which by
greediness of the outer `\s*` is exactly the first `\S+` token. -/
def statusMatchAt (l : List Char) : Option (List Char) :=
  match matchLabelSep "Status".toList l with
  | none => none
  | some r =>
    match r.takeWhile (fun c => !isPySpace c) with
    | [] => none
    | tok => some tok

/-- Match `(\s*\d+\.?\d*)\s*U` (for unit letter `U`) at the head of what
follows the label separator; returns the captured number text. -/
def matchNumberUnitAt (unit : Char) (l : List Char) : Option (List Char) :=
  match l.takeWhile isDigitC with
  | [] => none
  | d1 =>
    match l.dropWhile isDigitC with
    | '.' :: r2 =>
        match (r2.dropWhile isDigitC).dropWhile isPySpace with
        | u :: _ => if u = unit then some (d1 ++ '.' :: r2.takeWhile isDigitC) else none
        | [] => none
    | r1 =>
        match r1.dropWhile isPySpace with
        | u :: _ => if u = unit then some d1 else none
        | [] => none

/-- Match `Input Voltage\s*\|\s*(\s*\d+\.?\d*)\s*V` at the head. -/
def voltMatchAt (l : List Char) : Option (List Char) :=
  (matchLabelSep "Input Voltage".toList l).bind (matchNumberUnitAt 'V')

/-- Match `Input Current\s*\|\s*(\s*\d+\.?\d*)\s*A` at the head. -/
def currMatchAt (l : List Char) : Option (List Char) :=
  (matchLabelSep "Input Current".toList l).bind (matchNumberUnitAt 'A')

/-- Match `Input Power\s*\|\s*(\s*\d+\.?\d*)\s*W` at the head. -/
def powerMatchAt (l : List Char) : Option (List Char) :=
  (matchLabelSep "Input Power".toList l).bind (matchNumberUnitAt 'W')

/-- `re.search`: the leftmost position where the pattern matches.  (All
the patterns used here need at least one character, so the end-of-string
position never matches and is not tried.) -/
def searchField (matchAt : List Char → Option (List Char)) : List Char → Option (List Char)
  | [] => none
  | c :: cs =>
    match matchAt (c :: cs) with
    | some v => some v
    | none => searchField matchAt cs

/-- Numeric value of a digit character. -/
def digitVal (c : Char) : ℕ := c.toNat - '0'.toNat

/-- Numeric value of a digit string (most significant first). -/
def digitsToNat (l : List Char) : ℕ := l.foldl (fun n c => 10 * n + digitVal c) 0

/-- Python's `float()` restricted to the shapes `\d+` and `\d+.\d*` — the
only strings the numeric field matchers can capture (conversion of any
such string succeeds, which is why the source's `except ValueError`
branches are unreachable).  Anything else is a conversion failure. -/
def pyFloat? (l : List Char) : Option ℚ :=
  match l.takeWhile isDigitC with
  | [] => none
  | d1 =>
    match l.dropWhile isDigitC with
    | [] => some (digitsToNat d1)
    | '.' :: d2 =>
        if d2.all isDigitC then
          some ((digitsToNat d1 : ℚ) + (digitsToNat d2 : ℚ) / (10 : ℚ) ^ d2.length)
        else none
    | _ => none

/-- The dict key `psu{module_num}/{suffix}`. -/
def psuKey (num suffix : List Char) : List Char :=
  "psu".toList ++ num ++ '/' :: suffix

/-- Power stage of one module's processing: on a captured power value also
report that module's contribution to `total_watts`. -/
def moduleFieldsPower (num : List Char) (acc : List (List Char × RVal))
    (content : List Char) : List (List Char × RVal) × ℚ :=
  match searchField powerMatchAt content with
  | none => (acc, 0)
  | some cap =>
    match pyFloat? cap with
    | none => (acc, 0)
    | some p => (acc ++ [(psuKey num "watts".toList, RVal.num p)], p)

/-- Current stage; a conversion failure `continue`s to the next module,
skipping the power stage. -/
def moduleFieldsAmp (num : List Char) (acc : List (List Char × RVal))
    (content : List Char) : List (List Char × RVal) × ℚ :=
  match searchField currMatchAt content with
  | none => moduleFieldsPower num acc content
  | some cap =>
    match pyFloat? cap with
    | none => (acc, 0)
    | some a => moduleFieldsPower num (acc ++ [(psuKey num "amp".toList, RVal.num a)]) content

/-- Voltage stage; a conversion failure `continue`s to the next module,
skipping the current and power stages. -/
def moduleFieldsVolt (num : List Char) (acc : List (List Char × RVal))
    (content : List Char) : List (List Char × RVal) × ℚ :=
  match searchField voltMatchAt content with
  | none => moduleFieldsAmp num acc content
  | some cap =>
    match pyFloat? cap with
    | none => (acc, 0)
    | some v => moduleFieldsAmp num (acc ++ [(psuKey num "volt".toList, RVal.num v)]) content

/-- One iteration of the source's `for i in range(1, len(modules), 2)`
loop body: the fields captured for one module (in the order status,
voltage, current, power) and the module's contribution to `total_watts`.
`str()` on the status token cannot raise, so that `except` is modelled as
always succeeding. -/
def moduleFields (num content : List Char) : List (List Char × RVal) × ℚ :=
  moduleFieldsVolt num
    (match searchField statusMatchAt content with
     | none => []
     | some tok => [(psuKey num "status".toList, RVal.str tok)])
    content

/-- Python dict assignment `d[k] = v` on an insertion-ordered association
list: replace in place if the key exists, else append. -/
def dictInsert : List (List Char × RVal) → List Char → RVal → List (List Char × RVal)
  | [], k, v => [(k, v)]
  | kv :: rest, k, v => if kv.1 = k then (k, v) :: rest else kv :: dictInsert rest k v

/-- Consecutive dict assignments. -/
def dictExtend (l : List (List Char × RVal)) : List (List Char × RVal) → List (List Char × RVal)
  | [] => l
  | (k, v) :: rest => dictExtend (dictInsert l k v) rest

/-- Dict lookup (keys are unique, so first match suffices). -/
def dictLookup (l : List (List Char × RVal)) (k : List Char) : Option RVal :=
  match l with
  | [] => none
  | kv :: rest => if kv.1 = k then some kv.2 else dictLookup rest k

/-- One module's contribution folded into the loop state
(`readings`, `total_watts`). -/
def foldStep (acc : List (List Char × RVal) × ℚ) (m : List Char × List Char) :
    List (List Char × RVal) × ℚ :=
  (dictExtend acc.1 (moduleFields m.1 m.2).1, acc.2 + (moduleFields m.1 m.2).2)

/-- The parsing part of `get_readings`, applied to the tool's stdout: the
per-module readings dict and the accumulated `total_watts`, or `none`
(the source's `return None` fallback) when no field was captured. -/
def get_readings_pure (stdout : List Char) :
    Option (List (List Char × RVal) × ℚ) :=
  if ((splitModules stdout).foldl foldStep ([], 0)).1 = [] then none
  else some ((splitModules stdout).foldl foldStep ([], 0))

/-- Sum over the modules of each module's captured power (a module with no
captured power contributes `0`). -/
def sumCaptured (stdout : List Char) : ℚ :=
  ((splitModules stdout).map (fun m => (moduleFields m.1 m.2).2)).sum

/-- `get_readings` on a successful tool invocation: parse stdout and, when
anything was captured, add `total/watts` and `total/kwh` (the latter by
running `calculate_energy`, whose state mutation is returned alongside).
When nothing was captured, return `None` and leave the state untouched. -/
def get_readings (stdout : List Char) (st : EnergyState) (now : ℚ) :
    Option (List (List Char × RVal)) × EnergyState :=
  match get_readings_pure stdout with
  | none => (none, st)
  | some (rs, total) =>
    (some (dictInsert
            (dictInsert rs "total/watts".toList (RVal.num total))
            "total/kwh".toList
            (RVal.num (calculate_energy st total now).total_energy_kwh)),
      calculate_energy st total now)

/-! Section: Discovery publisher (`publish_discovery_config`) and the
connect-callback state machine (`on_connect` / `DISCOVERY_SENT`). -/

/-- A sensor descriptor from the `SENSORS` dict: display name and the
optional `Unit`, `Icon`, `Class`, `StateClass` properties. -/
structure SensorProps where
  Name : String
  Unit : Option String
  Icon : Option String
  Class : Option String
  StateClass : Option String
  deriving DecidableEq, Repr

/-- The static `SENSORS` catalog, in source order. -/
def SENSORS : List (String × SensorProps) :=
  [("psu1/status", ⟨"PSU 1 Status", none, some "mdi:check-circle", none, none⟩),
   ("psu2/status", ⟨"PSU 2 Status", none, some "mdi:check-circle", none, none⟩),
   ("psu1/volt", ⟨"PSU 1 Voltage", some "V", some "mdi:sine-wave", none, none⟩),
   ("psu2/volt", ⟨"PSU 2 Voltage", some "V", some "mdi:sine-wave", none, none⟩),
   ("psu1/amp", ⟨"PSU 1 Amperé", some "A", some "mdi:current-ac", none, none⟩),
   ("psu2/amp", ⟨"PSU 2 Amperé", some "A", some "mdi:current-ac", none, none⟩),
   ("psu1/watts", ⟨"PSU 1 Power", some "W", some "mdi:flash", none, none⟩),
   ("psu2/watts", ⟨"PSU 2 Power", some "W", some "mdi:flash", none, none⟩),
   ("total/watts", ⟨"Total Power", some "W", some "mdi:flash", some "power", none⟩),
   ("total/kwh", ⟨"Total Energy", some "kWh", some "mdi:lightning-bolt", some "energy",
      some "total_increasing"⟩)]

/-- The parts of the discovery configuration payload built per sensor (the
constant `device` block is shared by every sensor and omitted here). -/
structure DiscoveryPayload where
  name : String
  unique_id : String
  state_topic : String
  unit_of_measurement : String
  icon : String
  device_class : Option String
  state_class : Option String
  deriving DecidableEq, Repr

/-- The payload built by the body of `publish_discovery_config`'s loop for
one catalog entry, with `BASE_CLIENT_ID` passed in as `clientId`. -/
def buildPayload (clientId key : String) (props : SensorProps) : DiscoveryPayload :=
  ⟨props.Name,
   clientId ++ "_" ++ String.map (fun c => if c = '/' then '_' else c) key,
   "techthom/ipmi_" ++ clientId ++ "/power/" ++ key,
   props.Unit.getD "",
   props.Icon.getD "",
   props.Class,
   match props.StateClass with
   | some sc => some sc
   | none =>
    match props.Class with
    | some _ => some "measurement"
    | none => none⟩

/-- The process-wide connection/discovery state: the `DISCOVERY_SENT` flag
plus a count of how many times `publish_discovery_config` has run. -/
structure ConnState where
  discovery_sent : Bool
  publish_count : ℕ
  deriving DecidableEq, Repr

/-- State at process start: `DISCOVERY_SENT = False`, no publishes yet. -/
def initConnState : ConnState := ⟨false, 0⟩

/-- The `on_connect` callback: on result code 0, publish the discovery
configuration if and only if `DISCOVERY_SENT` is still false, then set the
flag; any other result code only logs. -/
def on_connect (s : ConnState) (rc : ℕ) : ConnState :=
  if rc = 0 then
    if s.discovery_sent then s
    else ⟨true, s.publish_count + 1⟩
  else s

/-- The `on_disconnect` callback only logs. -/
def on_disconnect (s : ConnState) : ConnState := s

/-- A bus lifecycle event as seen by the callbacks. -/
inductive BusEvent where
  | connect (rc : ℕ)
  | disconnect
  deriving DecidableEq, Repr

/-- Dispatch one bus event to its callback. -/
def busStep (s : ConnState) : BusEvent → ConnState
  | .connect rc => on_connect s rc
  | .disconnect => on_disconnect s

/-- Run a whole sequence of connect/disconnect events. -/
def runEvents (s : ConnState) (evs : List BusEvent) : ConnState :=
  evs.foldl busStep s

/-- A successful connection event (result code 0). -/
def isSuccessConnect : BusEvent → Bool
  | .connect rc => rc = 0
  | .disconnect => false

lemma runEvents_sent (c : ℕ) (evs : List BusEvent) :
    runEvents ⟨true, c⟩ evs = ⟨true, c⟩ := by
  induction evs with
  | nil => rfl
  | cons e rest ih =>
    cases e with
    | connect rc =>
      simp only [runEvents, List.foldl_cons, busStep, on_connect]
      split <;> exact ih
    | disconnect => exact ih

lemma runEvents_count (c : ℕ) (evs : List BusEvent) :
    (runEvents ⟨false, c⟩ evs).publish_count =
      c + (if evs.any isSuccessConnect then 1 else 0) := by
  induction evs generalizing c with
  | nil => simp [runEvents]
  | cons e rest ih =>
    cases e with
    | connect rc =>
      by_cases hrc : rc = 0
      · subst hrc
        simp only [runEvents, List.foldl_cons, busStep, on_connect, if_pos rfl]
        have : runEvents ⟨true, c + 1⟩ rest = ⟨true, c + 1⟩ := runEvents_sent _ _
        simp only [runEvents] at this
        simp [this, List.any_cons, isSuccessConnect]
      · simp only [runEvents, List.foldl_cons, busStep, on_connect, if_neg hrc]
        have := ih c
        simp only [runEvents] at this
        rw [this]
        simp [List.any_cons, isSuccessConnect, hrc]
    | disconnect =>
      simp only [runEvents, List.foldl_cons, busStep, on_disconnect]
      have := ih c
      simp only [runEvents] at this
      rw [this]
      simp [List.any_cons, isSuccessConnect]

/-! Section: Concrete sample inputs and derived notions used by the theorems -/

/-- Key membership in a readings dict. -/
def containsKey (l : List (List Char × RVal)) (k : List Char) : Bool :=
  l.any (fun kv => kv.1 = k)

/-- The zero-or-one dict entries contributed by one optional field. -/
def optEntry (k : List Char) (f : List Char → RVal) (o : Option (List Char)) :
    List (List Char × RVal) :=
  o.elim [] (fun cap => [(k, f cap)])

/-- The numeric value a successful field conversion stores (total on the
captures of the numeric matchers, whose conversion never fails). -/
def capVal (cap : List Char) : RVal :=
  RVal.num ((pyFloat? cap).getD 0)

/-- A well-formed two-module `pminfo` output sample. -/
def sampleTwo : List Char :=
  ("[Module 1]\n Status               | OK\n Input Voltage        | 230.0 V\n" ++
   " Input Current        | 0.5 A\n Input Power          | 115.0 W\n" ++
   "[Module 2]\n Status               | OK\n Input Voltage        | 229.0 V\n" ++
   " Input Current        | 0.6 A\n Input Power          | 137.4 W\n").toList

/-- The same sample with module 1's voltage line removed. -/
def sampleMissingVolt : List Char :=
  ("[Module 1]\n Status               | OK\n" ++
   " Input Current        | 0.5 A\n Input Power          | 115.0 W\n" ++
   "[Module 2]\n Status               | OK\n Input Voltage        | 229.0 V\n" ++
   " Input Current        | 0.6 A\n Input Power          | 137.4 W\n").toList

/-- A sample whose only module header carries index 3. -/
def sampleModule3 : List Char :=
  ("[Module 3]\n Status               | OK\n Input Power          | 50.0 W\n").toList

/-- Module 1's content inside `sampleTwo` (the text between the headers). -/
def sampleTwoContent1 : List Char :=
  ("\n Status               | OK\n Input Voltage        | 230.0 V\n" ++
   " Input Current        | 0.5 A\n Input Power          | 115.0 W\n").toList

/-- Module 2's content inside `sampleTwo` (the text after its header). -/
def sampleTwoContent2 : List Char :=
  ("\n Status               | OK\n Input Voltage        | 229.0 V\n" ++
   " Input Current        | 0.6 A\n Input Power          | 137.4 W\n").toList

/-! Section: Supporting lemmas -/

lemma dictLookup_dictInsert_self (l : List (List Char × RVal)) (k : List Char) (v : RVal) :
    dictLookup (dictInsert l k v) k = some v := by
  induction l with
  | nil => simp [dictInsert, dictLookup]
  | cons kv rest ih =>
    by_cases hk : kv.1 = k
    · simp [dictInsert, hk, dictLookup]
    · simp [dictInsert, hk, dictLookup, ih]

lemma dictLookup_dictInsert_ne (l : List (List Char × RVal)) (k k2 : List Char) (v : RVal)
    (h : k2 ≠ k) : dictLookup (dictInsert l k v) k2 = dictLookup l k2 := by
  induction l with
  | nil =>
    simp only [dictInsert, dictLookup]
    rw [if_neg (fun hh => h hh.symm)]
  | cons kv rest ih =>
    by_cases hk : kv.1 = k
    · simp only [dictInsert, if_pos hk, dictLookup]
      rw [if_neg (fun hh => h hh.symm), if_neg (fun hh => h (hk ▸ hh).symm)]
    · simp only [dictInsert, if_neg hk, dictLookup]
      by_cases hk2 : kv.1 = k2
      · simp [hk2]
      · simp [hk2, ih]

lemma dictInsert_ne_nil (l : List (List Char × RVal)) (k : List Char) (v : RVal) :
    dictInsert l k v ≠ [] := by
  cases l with
  | nil => simp [dictInsert]
  | cons kv rest =>
    by_cases hk : kv.1 = k
    · simp [dictInsert, hk]
    · simp [dictInsert, hk]

lemma dictExtend_nil (l : List (List Char × RVal)) : dictExtend l [] = l := rfl

lemma takeWhile_all {p : Char → Bool} {l : List Char} (hl : ∀ c ∈ l, p c) :
    l.takeWhile p = l ∧ l.dropWhile p = [] := by
  induction l with
  | nil => simp
  | cons c cs ih =>
    have hc := hl c (by simp)
    have ihh := ih (fun x hx => hl x (by simp [hx]))
    simp [List.takeWhile_cons, List.dropWhile_cons, hc, ihh.1, ihh.2]

lemma takeWhile_append_stop {p : Char → Bool} {l : List Char} (hl : ∀ c ∈ l, p c)
    {c : Char} (hc : p c = false) (r : List Char) :
    (l ++ c :: r).takeWhile p = l ∧ (l ++ c :: r).dropWhile p = c :: r := by
  induction l with
  | nil => simp [List.takeWhile_cons, List.dropWhile_cons, hc]
  | cons a as ih =>
    have ha := hl a (by simp)
    have ihh := ih (fun x hx => hl x (by simp [hx]))
    simp [List.takeWhile_cons, List.dropWhile_cons, ha, ihh.1, ihh.2]

lemma pyFloat?_digits_val {d1 : List Char} (h1 : d1 ≠ []) (hd1 : ∀ c ∈ d1, isDigitC c) :
    pyFloat? d1 = some (digitsToNat d1 : ℚ) := by
  have hall := takeWhile_all hd1
  unfold pyFloat?
  rw [hall.1, hall.2]
  cases d1 with
  | nil => exact absurd rfl h1
  | cons c cs => rfl

lemma pyFloat?_dot_val {d1 d2 : List Char} (h1 : d1 ≠ []) (hd1 : ∀ c ∈ d1, isDigitC c)
    (hd2 : ∀ c ∈ d2, isDigitC c) :
    pyFloat? (d1 ++ '.' :: d2) =
      some ((digitsToNat d1 : ℚ) + (digitsToNat d2 : ℚ) / (10 : ℚ) ^ d2.length) := by
  have hstop := takeWhile_append_stop hd1 (by decide : isDigitC '.' = false) d2
  have hall : d2.all isDigitC = true := List.all_eq_true.mpr (fun x hx => hd2 x hx)
  unfold pyFloat?
  rw [hstop.1, hstop.2]
  cases d1 with
  | nil => exact absurd rfl h1
  | cons c cs =>
    simp only [hall, if_true]

/-- Any string captured by the numeric matcher converts successfully, so
the source's `except ValueError: continue` branches never run. -/
lemma matchNumberUnitAt_float {u : Char} {l cap : List Char}
    (h : matchNumberUnitAt u l = some cap) : ∃ q, pyFloat? cap = some q := by
  have hd1 : ∀ x ∈ l.takeWhile isDigitC, isDigitC x := fun _ hx => List.mem_takeWhile_imp hx
  unfold matchNumberUnitAt at h
  split at h
  · cases h
  next heq1 =>
    have hne1 : l.takeWhile isDigitC ≠ [] := fun hh => heq1 hh
    split at h
    next r2 heq2 =>
      split at h
      next u2 rest heq3 =>
        split at h
        · cases h
          exact ⟨_, pyFloat?_dot_val hne1 hd1 (fun _ hx => List.mem_takeWhile_imp hx)⟩
        · cases h
      next => cases h
    next heq2 =>
      split at h
      next u2 rest heq3 =>
        split at h
        · cases h
          exact ⟨_, pyFloat?_digits_val hne1 hd1⟩
        · cases h
      next => cases h

lemma searchField_some {matchAt : List Char → Option (List Char)} {l v : List Char}
    (h : searchField matchAt l = some v) : ∃ l2, matchAt l2 = some v := by
  induction l with
  | nil => cases h
  | cons c cs ih =>
    unfold searchField at h
    split at h
    next hm => exact ⟨c :: cs, by rw [hm]; exact h⟩
    next => exact ih h

lemma psuKey_inj {num s t : List Char} (h : psuKey num s = psuKey num t) : s = t := by
  unfold psuKey at h
  have h2 := List.append_cancel_left h
  exact (List.cons.injEq _ _ _ _ ▸ h2).2

lemma psuKey_ne {num s t : List Char} (hst : s ≠ t) : psuKey num s ≠ psuKey num t :=
  fun h => hst (psuKey_inj h)

lemma psuKey_eq_iff (num s t : List Char) : psuKey num s = psuKey num t ↔ s = t :=
  ⟨psuKey_inj, by rintro rfl; rfl⟩

lemma bind_matchNumber_float {label : List Char} {u : Char} {l cap : List Char}
    (h : (matchLabelSep label l).bind (matchNumberUnitAt u) = some cap) :
    ∃ q, pyFloat? cap = some q := by
  cases hm : matchLabelSep label l with
  | none => rw [hm] at h; cases h
  | some r => rw [hm] at h; exact matchNumberUnitAt_float h

lemma searchVolt_float {content cap : List Char}
    (h : searchField voltMatchAt content = some cap) : ∃ q, pyFloat? cap = some q := by
  obtain ⟨l2, hl2⟩ := searchField_some h
  unfold voltMatchAt at hl2
  exact bind_matchNumber_float hl2

lemma searchCurr_float {content cap : List Char}
    (h : searchField currMatchAt content = some cap) : ∃ q, pyFloat? cap = some q := by
  obtain ⟨l2, hl2⟩ := searchField_some h
  unfold currMatchAt at hl2
  exact bind_matchNumber_float hl2

lemma searchPower_float {content cap : List Char}
    (h : searchField powerMatchAt content = some cap) : ∃ q, pyFloat? cap = some q := by
  obtain ⟨l2, hl2⟩ := searchField_some h
  unfold powerMatchAt at hl2
  exact bind_matchNumber_float hl2

lemma moduleFieldsPower_fst (num : List Char) (acc : List (List Char × RVal))
    (content : List Char) :
    (moduleFieldsPower num acc content).1 =
      acc ++ optEntry (psuKey num "watts".toList) capVal (searchField powerMatchAt content) := by
  unfold moduleFieldsPower
  cases hW : searchField powerMatchAt content with
  | none => simp [optEntry]
  | some cap =>
    obtain ⟨q, hq⟩ := searchPower_float hW
    dsimp only
    rw [hq]
    simp [optEntry, capVal, hq]

lemma moduleFieldsAmp_fst (num : List Char) (acc : List (List Char × RVal))
    (content : List Char) :
    (moduleFieldsAmp num acc content).1 =
      acc ++ optEntry (psuKey num "amp".toList) capVal (searchField currMatchAt content)
          ++ optEntry (psuKey num "watts".toList) capVal (searchField powerMatchAt content) := by
  unfold moduleFieldsAmp
  cases hA : searchField currMatchAt content with
  | none => rw [moduleFieldsPower_fst]; simp [optEntry]
  | some cap =>
    obtain ⟨q, hq⟩ := searchCurr_float hA
    dsimp only
    rw [hq]
    dsimp only
    rw [moduleFieldsPower_fst]
    simp [optEntry, capVal, hq, List.append_assoc]

lemma moduleFieldsVolt_fst (num : List Char) (acc : List (List Char × RVal))
    (content : List Char) :
    (moduleFieldsVolt num acc content).1 =
      acc ++ optEntry (psuKey num "volt".toList) capVal (searchField voltMatchAt content)
          ++ optEntry (psuKey num "amp".toList) capVal (searchField currMatchAt content)
          ++ optEntry (psuKey num "watts".toList) capVal (searchField powerMatchAt content) := by
  unfold moduleFieldsVolt
  cases hV : searchField voltMatchAt content with
  | none => rw [moduleFieldsAmp_fst]; simp [optEntry]
  | some cap =>
    obtain ⟨q, hq⟩ := searchVolt_float hV
    dsimp only
    rw [hq]
    dsimp only
    rw [moduleFieldsAmp_fst]
    simp [optEntry, capVal, hq, List.append_assoc]

/-- The fields captured for one module decompose field by field: each of
the four keys appears exactly when its own pattern matches somewhere in
the module content, independently of the other three. -/
lemma moduleFields_fst (num content : List Char) :
    (moduleFields num content).1 =
      optEntry (psuKey num "status".toList) RVal.str (searchField statusMatchAt content)
        ++ optEntry (psuKey num "volt".toList) capVal (searchField voltMatchAt content)
        ++ optEntry (psuKey num "amp".toList) capVal (searchField currMatchAt content)
        ++ optEntry (psuKey num "watts".toList) capVal (searchField powerMatchAt content) := by
  unfold moduleFields
  rw [moduleFieldsVolt_fst]
  cases hS : searchField statusMatchAt content <;> simp [optEntry, List.append_assoc]

lemma containsKey_append (a b : List (List Char × RVal)) (k : List Char) :
    containsKey (a ++ b) k = (containsKey a k || containsKey b k) := by
  simp [containsKey, List.any_append]

lemma containsKey_optEntry (k k2 : List Char) (f : List Char → RVal) (o : Option (List Char)) :
    containsKey (optEntry k f o) k2 = (o.isSome && decide (k = k2)) := by
  cases o <;> simp [optEntry, containsKey]

lemma moduleFieldsPower_snd (num : List Char) (acc : List (List Char × RVal))
    (content : List Char) :
    (moduleFieldsPower num acc content).2 =
      ((searchField powerMatchAt content).bind pyFloat?).getD 0 := by
  unfold moduleFieldsPower
  cases hW : searchField powerMatchAt content with
  | none => simp
  | some cap =>
    obtain ⟨q, hq⟩ := searchPower_float hW
    dsimp only
    rw [hq]
    simp [hq]

lemma moduleFieldsAmp_snd (num : List Char) (acc : List (List Char × RVal))
    (content : List Char) :
    (moduleFieldsAmp num acc content).2 =
      ((searchField powerMatchAt content).bind pyFloat?).getD 0 := by
  unfold moduleFieldsAmp
  cases hA : searchField currMatchAt content with
  | none => exact moduleFieldsPower_snd num acc content
  | some cap =>
    obtain ⟨q, hq⟩ := searchCurr_float hA
    dsimp only
    rw [hq]
    exact moduleFieldsPower_snd num _ content

lemma moduleFieldsVolt_snd (num : List Char) (acc : List (List Char × RVal))
    (content : List Char) :
    (moduleFieldsVolt num acc content).2 =
      ((searchField powerMatchAt content).bind pyFloat?).getD 0 := by
  unfold moduleFieldsVolt
  cases hV : searchField voltMatchAt content with
  | none => exact moduleFieldsAmp_snd num acc content
  | some cap =>
    obtain ⟨q, hq⟩ := searchVolt_float hV
    dsimp only
    rw [hq]
    exact moduleFieldsAmp_snd num _ content

/-- Each module's contribution to `total_watts` is its captured and
converted power value, `0` when no power field was captured. -/
lemma moduleFields_snd (num content : List Char) :
    (moduleFields num content).2 =
      ((searchField powerMatchAt content).bind pyFloat?).getD 0 := by
  unfold moduleFields
  exact moduleFieldsVolt_snd num _ content

lemma foldl_foldStep_snd (ms : List (List Char × List Char))
    (acc : List (List Char × RVal) × ℚ) :
    (ms.foldl foldStep acc).2 =
      acc.2 + (ms.map (fun m => (moduleFields m.1 m.2).2)).sum := by
  induction ms generalizing acc with
  | nil => simp
  | cons m rest ih =>
    rw [List.foldl_cons, ih (foldStep acc m)]
    simp only [foldStep, List.map_cons, List.sum_cons]
    ring

lemma foldl_foldStep_fst_nil {ms : List (List Char × List Char)}
    (hms : ∀ m ∈ ms, (moduleFields m.1 m.2).1 = [])
    (acc : List (List Char × RVal) × ℚ) :
    (ms.foldl foldStep acc).1 = acc.1 := by
  induction ms generalizing acc with
  | nil => rfl
  | cons m rest ih =>
    have h1 := hms m (by simp)
    have h2 := ih (fun x hx => hms x (by simp [hx])) (foldStep acc m)
    rw [List.foldl_cons, h2]
    simp [foldStep, h1, dictExtend_nil]

lemma get_readings_pure_total {s : List Char} {rs : List (List Char × RVal)} {total : ℚ}
    (h : get_readings_pure s = some (rs, total)) : total = sumCaptured s := by
  unfold get_readings_pure at h
  split at h
  · cases h
  · rw [Option.some.injEq] at h
    have h2 : total = (List.foldl foldStep ([], 0) (splitModules s)).2 := by rw [h]
    rw [h2, foldl_foldStep_snd]
    simp [sumCaptured]

/-! Section: Claim theorems -/

/-- C1: across every sequence of successive `calculate_energy` calls with
non-negative power readings and timestamps that never precede the state's
previous update (in particular every strictly increasing timestamp
sequence), the running `total_energy_kwh` never decreases: each call's
resulting total is ≥ the previous total. -/
theorem C1_energy_total_monotone (st : EnergyState) (l : List (ℚ × ℚ))
    (hp : 0 ≤ st.last_power_w) (hv : validSeq st.last_update_ts l) :
    List.Chain' (· ≤ ·) (totalsTrace st l) :=
  totalsTrace_chain st l hp hv

/-- Witness: a concrete run of two calls from the zero state. -/
theorem C1_energy_total_monotone_witness :
    List.Chain' (· ≤ ·) (totalsTrace ⟨0, 0, 0⟩ [(100, 3600), (50, 7200)]) :=
  C1_energy_total_monotone ⟨0, 0, 0⟩ [(100, 3600), (50, 7200)] (by norm_num)
    (by norm_num [validSeq])

/-- C3: from the state {last_power 0, total 0, last update t0}, a call
with 100 W at t0 followed by a call with 100 W at t0+3600 s accumulates
exactly 0.1 kWh (trapezoidal rule: average of current and previous power
times elapsed hours, divided by 1000). -/
theorem C3_trapezoidal_hour (t0 : ℚ) :
    (calculate_energy (calculate_energy ⟨0, t0, 0⟩ 100 t0) 100 (t0 + 3600)).total_energy_kwh
      = 1 / 10 := by
  simp only [calculate_energy]
  ring_nf

/-- C7 counterexample: the initial `ENERGY_STATE` of a process started at
wall-clock time 1700000000 has `last_update_ts = 1700000000`, not 0 (the
source initialises it with `time.time()`); moreover, had it really been
zero-initialised, a first 500 W reading at that time would contribute
about 118056 kWh — not a near-zero increment. -/
theorem C7_counterexample :
    (ENERGY_STATE_init 1700000000).last_update_ts ≠ 0 ∧
    (calculate_energy ⟨0, 0, 0⟩ 500 1700000000).total_energy_kwh = 1062500 / 9 := by
  constructor
  · norm_num [ENERGY_STATE_init]
  · simp only [calculate_energy]
    norm_num

/-- C7 (amended): with no persisted state, `last_power_w` and
`total_energy_kwh` start at zero but `last_update_ts` starts at the
process-start time; the first-ever reading of any magnitude `w` at time
`t` therefore contributes `w*(t - startup_ts)/7200000` kWh — near zero
because the elapsed time since process start is small, regardless of the
reading's magnitude. -/
theorem C7_cold_start (startup_ts w t : ℚ) :
    (ENERGY_STATE_init startup_ts).last_power_w = 0 ∧
    (ENERGY_STATE_init startup_ts).total_energy_kwh = 0 ∧
    (ENERGY_STATE_init startup_ts).last_update_ts = startup_ts ∧
    (calculate_energy (ENERGY_STATE_init startup_ts) w t).total_energy_kwh
      = w * (t - startup_ts) / 7200000 := by
  refine ⟨rfl, rfl, rfl, ?_⟩
  simp only [ENERGY_STATE_init, calculate_energy]
  ring

/-- C6: from process start, any sequence of bus connect/disconnect events
invokes the discovery publish exactly once if the sequence contains a
successful connection (however many reconnects follow), and never
otherwise. -/
theorem C6_discovery_once (evs : List BusEvent) :
    (runEvents initConnState evs).publish_count =
      if evs.any isSuccessConnect then 1 else 0 := by
  have h := runEvents_count 0 evs
  simpa [initConnState] using h

/-- C8: for every descriptor in the catalog, the discovery payload
carries the descriptor's explicit state-class when one is declared,
defaults to "measurement" when only a device-class is declared, and
carries none when neither is declared; in particular `total/kwh` (which
declares "total_increasing") is never overridden to "measurement". -/
theorem C8_state_class (clientId : String) (kp : String × SensorProps)
    (hmem : kp ∈ SENSORS) :
    (∀ sc, kp.2.StateClass = some sc →
        (buildPayload clientId kp.1 kp.2).state_class = some sc) ∧
    (kp.2.StateClass = none → kp.2.Class ≠ none →
        (buildPayload clientId kp.1 kp.2).state_class = some "measurement") ∧
    (kp.2.StateClass = none → kp.2.Class = none →
        (buildPayload clientId kp.1 kp.2).state_class = none) ∧
    (kp.1 = "total/kwh" →
        (buildPayload clientId kp.1 kp.2).state_class = some "total_increasing") := by
  fin_cases hmem <;> simp [buildPayload]

/-- Witness: the `total/kwh` catalog entry keeps its explicit
"total_increasing" state-class. -/
theorem C8_state_class_witness :
    (buildPayload "srv" "total/kwh"
        ⟨"Total Energy", some "kWh", some "mdi:lightning-bolt", some "energy",
          some "total_increasing"⟩).state_class = some "total_increasing" :=
  (C8_state_class "srv"
      ("total/kwh",
        ⟨"Total Energy", some "kWh", some "mdi:lightning-bolt", some "energy",
          some "total_increasing"⟩)
      (by decide)).1 "total_increasing" rfl

/-- C10: the discovery catalog is fixed at exactly these 10 sensors,
covering only modules 1 and 2 plus the totals, while the parser keys
readings by the literal module index of the tool output; a module
numbered 3 therefore yields a `psu3/watts` reading with no corresponding
discovery configuration. -/
theorem C10_catalog_fixed :
    SENSORS.map Prod.fst =
      ["psu1/status", "psu2/status", "psu1/volt", "psu2/volt",
       "psu1/amp", "psu2/amp", "psu1/watts", "psu2/watts",
       "total/watts", "total/kwh"] ∧
    SENSORS.length = 10 ∧
    (get_readings_pure sampleModule3).elim false
      (fun rt => containsKey rt.1 "psu3/watts".toList) = true ∧
    "psu3/watts" ∉ SENSORS.map Prod.fst := by
  exact ⟨by decide, by decide, by decide, by decide⟩

/-- C5: per-field failure isolation — for every module number and module
content, each of the four keys is present among that module's captured
fields exactly when its own pattern matches the content, independently of
the other fields (captured numeric text always converts, so a conversion
failure can never suppress later fields); and on the concrete sample
whose first module lacks its voltage line, exactly that one key is
missing. -/
theorem C5_field_isolation (num content : List Char) :
    (containsKey (moduleFields num content).1 (psuKey num "status".toList)
        = (searchField statusMatchAt content).isSome ∧
     containsKey (moduleFields num content).1 (psuKey num "volt".toList)
        = (searchField voltMatchAt content).isSome ∧
     containsKey (moduleFields num content).1 (psuKey num "amp".toList)
        = (searchField currMatchAt content).isSome ∧
     containsKey (moduleFields num content).1 (psuKey num "watts".toList)
        = (searchField powerMatchAt content).isSome) ∧
    (get_readings_pure sampleMissingVolt).map (fun rt => rt.1.map Prod.fst) =
      some ["psu1/status".toList, "psu1/amp".toList, "psu1/watts".toList,
            "psu2/status".toList, "psu2/volt".toList, "psu2/amp".toList,
            "psu2/watts".toList] := by
  refine ⟨?_, by decide⟩
  refine ⟨?_, ?_, ?_, ?_⟩ <;>
    rw [moduleFields_fst] <;>
    simp [containsKey_append, containsKey_optEntry, psuKey_eq_iff]

/-- C4: a raw output from which zero fields are captured across all
modules makes the pipeline return the no-data result `None`, and a
successful result is never an empty mapping. -/
theorem C4_no_fields_failure (s : List Char) (st : EnergyState) (now : ℚ) :
    ((∀ m ∈ splitModules s, (moduleFields m.1 m.2).1 = []) →
        (get_readings s st now).1 = none) ∧
    (∀ rs, (get_readings s st now).1 = some rs → rs ≠ []) := by
  constructor
  · intro hall
    have hp : get_readings_pure s = none := by
      unfold get_readings_pure
      rw [if_pos]
      exact foldl_foldStep_fst_nil hall ([], 0)
    unfold get_readings
    rw [hp]
  · intro rs hrs
    unfold get_readings at hrs
    cases hp : get_readings_pure s with
    | none => rw [hp] at hrs; cases hrs
    | some rt =>
      obtain ⟨rs0, total⟩ := rt
      rw [hp] at hrs
      dsimp only at hrs
      rw [Option.some.injEq] at hrs
      rw [← hrs]
      exact dictInsert_ne_nil _ _ _

/-- Witness: unparseable text yields the no-data result. -/
theorem C4_no_fields_failure_witness :
    (get_readings "hello".toList ⟨0, 0, 0⟩ 0).1 = none :=
  (C4_no_fields_failure "hello".toList ⟨0, 0, 0⟩ 0).1 (by decide)

/-- C2: every successful result carries `total/watts` equal to the sum
over the modules of the captured-and-converted power values (a module
with no captured power contributing zero); on the well-formed two-module
sample this gives exactly the 8 per-module keys and
`total/watts = 115.0 + 137.4`. -/
theorem C2_total_watts :
    (∀ (s : List Char) (st : EnergyState) (now : ℚ)
        (rs : List (List Char × RVal)) (st2 : EnergyState),
        get_readings s st now = (some rs, st2) →
        dictLookup rs "total/watts".toList = some (RVal.num (sumCaptured s))) ∧
    (∀ s : List Char, sumCaptured s =
        ((splitModules s).map
          (fun m => ((searchField powerMatchAt m.2).bind pyFloat?).getD 0)).sum) ∧
    (get_readings_pure sampleTwo).map (fun rt => rt.1.map Prod.fst) =
      some ["psu1/status".toList, "psu1/volt".toList, "psu1/amp".toList,
            "psu1/watts".toList, "psu2/status".toList, "psu2/volt".toList,
            "psu2/amp".toList, "psu2/watts".toList] ∧
    sumCaptured sampleTwo = 115 + 687 / 5 := by
  refine ⟨?_, ?_, by decide, ?_⟩
  · intro s st now rs st2 h
    unfold get_readings at h
    cases hp : get_readings_pure s with
    | none => rw [hp] at h; simp at h
    | some rt =>
      obtain ⟨rs0, total⟩ := rt
      rw [hp] at h
      dsimp only at h
      rw [Prod.mk.injEq] at h
      obtain ⟨h1, h2⟩ := h
      rw [Option.some.injEq] at h1
      rw [← h1]
      rw [dictLookup_dictInsert_ne _ _ _ _ (by decide)]
      rw [dictLookup_dictInsert_self]
      rw [get_readings_pure_total hp]
  · intro s
    unfold sumCaptured
    simp [moduleFields_snd]
  · have hsplit : splitModules sampleTwo =
        [("1".toList, sampleTwoContent1), ("2".toList, sampleTwoContent2)] := by decide
    have hs1 : searchField powerMatchAt sampleTwoContent1 = some "115.0".toList := by decide
    have hs2 : searchField powerMatchAt sampleTwoContent2 = some "137.4".toList := by decide
    have hval1 : pyFloat? ['1', '1', '5', '.', '0'] = some 115 := by
      have e1 : ['1', '1', '5', '.', '0'] = ['1', '1', '5'] ++ '.' :: ['0'] := rfl
      rw [e1, @pyFloat?_dot_val ['1', '1', '5'] ['0'] (by decide) (by decide) (by decide)]
      rw [(by decide : digitsToNat ['1', '1', '5'] = 115),
        (by decide : digitsToNat ['0'] = 0),
        (by decide : List.length ['0'] = 1)]
      norm_num
    have hval2 : pyFloat? ['1', '3', '7', '.', '4'] = some (687 / 5) := by
      have e2 : ['1', '3', '7', '.', '4'] = ['1', '3', '7'] ++ '.' :: ['4'] := rfl
      rw [e2, @pyFloat?_dot_val ['1', '3', '7'] ['4'] (by decide) (by decide) (by decide)]
      rw [(by decide : digitsToNat ['1', '3', '7'] = 137),
        (by decide : digitsToNat ['4'] = 4),
        (by decide : List.length ['4'] = 1)]
      norm_num
    unfold sumCaptured
    rw [hsplit]
    simp [moduleFields_snd, hs1, hs2, hval1, hval2]

/-- Witness: the general `total/watts` conjunct applied to the concrete
one-module sample. -/
theorem C2_total_watts_witness :
    ∃ (rs : List (List Char × RVal)) (st2 : EnergyState),
      get_readings sampleModule3 ⟨0, 0, 0⟩ 0 = (some rs, st2) ∧
      dictLookup rs "total/watts".toList = some (RVal.num (sumCaptured sampleModule3)) := by
  have hs : (get_readings_pure sampleModule3).isSome = true := by decide
  obtain ⟨rt, hrt⟩ := Option.isSome_iff_exists.mp hs
  obtain ⟨rs0, total⟩ := rt
  have heq : get_readings sampleModule3 ⟨0, 0, 0⟩ 0 =
      (some (dictInsert
        (dictInsert rs0 "total/watts".toList (RVal.num total))
        "total/kwh".toList
        (RVal.num (calculate_energy ⟨0, 0, 0⟩ total 0).total_energy_kwh)),
       calculate_energy ⟨0, 0, 0⟩ total 0) := by
    unfold get_readings
    rw [hrt]
  exact ⟨_, _, heq, C2_total_watts.1 sampleModule3 ⟨0, 0, 0⟩ 0 _ _ heq⟩

/-- C9: every successful pipeline result contains both `total/watts` and
`total/kwh`; the energy state is mutated to the integration of this
cycle's total power (the state written through to disk), and `total/kwh`
carries exactly that updated cumulative total. -/
theorem C9_success_totals (s : List Char) (st : EnergyState) (now : ℚ)
    (rs : List (List Char × RVal)) (st2 : EnergyState)
    (h : get_readings s st now = (some rs, st2)) :
    st2 = calculate_energy st (sumCaptured s) now ∧
    dictLookup rs "total/watts".toList = some (RVal.num (sumCaptured s)) ∧
    dictLookup rs "total/kwh".toList = some (RVal.num st2.total_energy_kwh) := by
  unfold get_readings at h
  cases hp : get_readings_pure s with
  | none => rw [hp] at h; simp at h
  | some rt =>
    obtain ⟨rs0, total⟩ := rt
    rw [hp] at h
    dsimp only at h
    rw [Prod.mk.injEq] at h
    obtain ⟨h1, h2⟩ := h
    rw [Option.some.injEq] at h1
    have htot := get_readings_pure_total hp
    refine ⟨by rw [← h2, htot], ?_, ?_⟩
    · rw [← h1]
      rw [dictLookup_dictInsert_ne _ _ _ _ (by decide)]
      rw [dictLookup_dictInsert_self, htot]
    · rw [← h1, dictLookup_dictInsert_self, ← h2]

/-- Witness: the `C9` conclusions on the concrete two-module sample. -/
theorem C9_success_totals_witness :
    ∃ (rs : List (List Char × RVal)) (st2 : EnergyState),
      get_readings sampleTwo ⟨0, 0, 0⟩ 3600 = (some rs, st2) ∧
      st2 = calculate_energy ⟨0, 0, 0⟩ (sumCaptured sampleTwo) 3600 ∧
      dictLookup rs "total/kwh".toList = some (RVal.num st2.total_energy_kwh) := by
  have hs : (get_readings_pure sampleTwo).isSome = true := by decide
  obtain ⟨rt, hrt⟩ := Option.isSome_iff_exists.mp hs
  obtain ⟨rs0, total⟩ := rt
  have heq : get_readings sampleTwo ⟨0, 0, 0⟩ 3600 =
      (some (dictInsert
        (dictInsert rs0 "total/watts".toList (RVal.num total))
        "total/kwh".toList
        (RVal.num (calculate_energy ⟨0, 0, 0⟩ total 3600).total_energy_kwh)),
       calculate_energy ⟨0, 0, 0⟩ total 3600) := by
    unfold get_readings
    rw [hrt]
  have hc := C9_success_totals sampleTwo ⟨0, 0, 0⟩ 3600 _ _ heq
  exact ⟨_, _, heq, hc.1, hc.2.2⟩

end IpmiMqtt
